import Mathlib

/-!
Shallow embedding of `src/scripts/parse_wikidata_dump.py` (LamAPI repository).

The Python script streams a bz2-compressed Wikidata dump (one JSON entity per
line), classifies each entity (category, NER tags, type closure), decomposes
its claims into object/literal/type buckets, and persists the derived records
in batches, logging per-entity failures.

Modelling conventions:
- Python dicts are modelled as association lists (keys are unique in real
  JSON objects); `d[k]` raising `KeyError` / `IndexError` / `AttributeError` /
  `UnboundLocalError` is modelled with `Except PErr`.
- JSON values inside a claim's `datavalue` are modelled by the inductive
  `JValue`.
- Remote services (SPARQL queries, MongoDB) are modelled as explicit
  parameters / event logs: `superEnv` gives the result of
  `retrieve_superclasses`, `QueryOutcome` the outcome of one
  `get_wikidata_item_tree_item_idsSPARQL` call, and `InsertEvent` records one
  `insert_many` bulk insert.
-/

namespace LamAPI

/-- A JSON value as found under `mainsnak.datavalue` of a claim. -/
inductive JValue where
  | jstr (s : String)
  | jnum (n : Int)
  | jobj (fields : List (String × JValue))

mutual

/-- Python `==` on JSON values (used for dict-key membership tests). -/
def jvalBeq : JValue → JValue → Bool
  | .jstr a, .jstr b => a == b
  | .jnum a, .jnum b => a == b
  | .jobj fs, .jobj gs => jfieldsBeq fs gs
  | _, _ => false

/-- Python `==` on the field lists of two JSON objects. -/
def jfieldsBeq : List (String × JValue) → List (String × JValue) → Bool
  | [], [] => true
  | (k, v) :: fs, (l, w) :: gs => k == l && jvalBeq v w && jfieldsBeq fs gs
  | _, _ => false

end

/-- Python runtime errors that the script can raise while processing one
entity (`KeyError`, `IndexError`, `AttributeError`, `UnboundLocalError`). -/
inductive PErr where
  | keyError (k : String)
  | indexError
  | attributeError
  | nameError (n : String)
  | typeError (k : String)
  | queryError
deriving DecidableEq

/-- Human-readable message of an error, standing in for `str(e)`. -/
def errMsg : PErr → String
  | .keyError k => "KeyError: " ++ k
  | .indexError => "IndexError: string index out of range"
  | .attributeError => "AttributeError: no attribute get"
  | .nameError n => "UnboundLocalError: " ++ n
  | .typeError k => "TypeError: not subscriptable: " ++ k
  | .queryError => "query failed"

/-- `v.get(k)` on a Python value: `None`-able field lookup; raises
`AttributeError` when the receiver is not a dict. -/
def pyGetOpt (v : JValue) (k : String) : Except PErr (Option JValue) :=
  match v with
  | .jobj fs => .ok (fs.lookup k)
  | _ => .error PErr.attributeError

/-- `v.get(k, d)` on a Python value. -/
def pyGetD (v : JValue) (k : String) (d : JValue) : Except PErr JValue := do
  let r ← pyGetOpt v k
  pure (r.getD d)

/-- `v[k]` on a Python value: raises `KeyError` when the key is absent and
`TypeError` when the receiver is not a dict. -/
def pyIndex (v : JValue) (k : String) : Except PErr JValue :=
  match v with
  | .jobj fs =>
    match fs.lookup k with
    | some x => .ok x
    | none => .error (PErr.keyError k)
  | _ => .error (PErr.typeError k)

/-- Python `str(v)` for the values reachable here. `str` of a dict is
abstracted to a fixed marker (its exact text is never relevant: dicts never
occur where the script stringifies values in real dump data). -/
def pyStrV : JValue → String
  | .jstr s => s
  | .jnum n => toString n
  | .jobj _ => "dict"

/-- Python `str` applied to an optional value (`str(None) = "None"`). -/
def pyStrOpt : Option JValue → String
  | none => "None"
  | some v => pyStrV v

/-- Python `x == n` for an optional value against an int literal. -/
def pyEqInt (o : Option JValue) (n : Int) : Bool :=
  match o with
  | some (.jnum m) => m == n
  | _ => false

/-- Python `x in l` for an optional value against a list of ints. -/
def pyMemInt (o : Option JValue) (l : List Int) : Bool :=
  match o with
  | some (.jnum m) => l.contains m
  | _ => false

/-- Deduplication keeping the first occurrence of each element.  Models both
`list(set(...))` (whose order we fix deterministically) and the insertion
order of `collections.Counter` keys. -/
def dedupFirst (ts : List String) : List String :=
  ts.foldl (fun acc t => if t ∈ acc then acc else acc ++ [t]) []

/-- One `labels[lang]` / `descriptions[lang]` object (`language`, `value`). -/
structure LangValue where
  language : String
  value : String

/-- One element of `aliases[lang]`. -/
structure AliasValue where
  value : String

/-- One `sitelinks[wiki]` object; the script only reads `title`. -/
structure Sitelink where
  title : String

/-- A claim's `mainsnak`: a datatype tag and an optional `datavalue` (the
whole `datavalue` JSON object, e.g. `\x7b"value": ..., "type": ...\x7d`). -/
structure Snak where
  datatype : String
  datavalue : Option JValue

/-- One claim object; `mainsnak` may be absent. -/
structure Claim where
  mainsnak : Option Snak

/-- The as-decoded source record (one line of the dump).  `id` and `claims`
are accessed with `item["id"]` / `item["claims"]` in the script and are part
of the spec's RawEntity data model, so they are required fields; the fields
the script reads with `item.get(...)` are optional / default-empty. -/
structure RawEntity where
  id : String
  etype : Option String
  labels : List (String × LangValue)
  aliases : List (String × List AliasValue)
  descriptions : List (String × LangValue)
  sitelinks : List (String × Sitelink)
  claims : List (String × List Claim)

/-- `DATATYPES_MAPPINGS` from the script. -/
def DATATYPES_MAPPINGS : List (String × String) :=
  [("external-id", "STRING"),
   ("quantity", "NUMBER"),
   ("globe-coordinate", "STRING"),
   ("string", "STRING"),
   ("monolingualtext", "STRING"),
   ("commonsMedia", "STRING"),
   ("time", "DATETIME"),
   ("url", "STRING"),
   ("geo-shape", "GEOSHAPE"),
   ("math", "MATH"),
   ("musical-notation", "MUSICAL_NOTATION"),
   ("tabular-data", "TABULAR_DATA")]

/-- `DATATYPES = list(set(DATATYPES_MAPPINGS.values()))`; the Python set
order is unspecified, fixed here as first occurrence. -/
def DATATYPES : List String := dedupFirst (DATATYPES_MAPPINGS.map (·.2))

/-- `BATCH_SIZE = 100`. -/
def BATCH_SIZE : Nat := 100

/-- `check_skip(obj, datatype)`: the claim is skipped when its mainsnak has
no `datavalue` or its datatype is an unsupported lexical kind.  (In the
decomposition loop the mainsnak is always present at this point, since
`obj["mainsnak"]["datatype"]` was evaluated first, so the model takes the
snak directly.) -/
def check_skip (snak : Snak) (datatype : String) : Bool :=
  snak.datavalue.isNone ||
    datatype ∈ ["wikibase-lexeme", "wikibase-form", "wikibase-sense"]

/-- `get_value(obj, datatype)`: extract the literal value of a claim. -/
def get_value (snak : Snak) : Except PErr JValue := do
  let dv ← match snak.datavalue with
           | some dv => Except.ok dv
           | none => Except.error (PErr.keyError "datavalue")
  if snak.datatype = "globe-coordinate" then do
    let v ← pyIndex dv "value"
    let lat ← pyIndex v "latitude"
    let lon ← pyIndex v "longitude"
    pure (JValue.jstr (pyStrV lat ++ "," ++ pyStrV lon))
  else
    match ([("quantity", "amount"), ("monolingualtext", "text"),
            ("time", "time")] : List (String × String)).lookup snak.datatype with
    | some key => do
      let v ← pyIndex dv "value"
      pyIndex v key
    | none => pyIndex dv "value"

/-- `claim.get("mainsnak", \x7b\x7d).get("datavalue", \x7b\x7d).get("value",
\x7b\x7d).get("numeric-id")` — the numeric-id extraction used by the NER and
explicit-type loops. -/
def claimNumericId (c : Claim) : Except PErr (Option JValue) :=
  match c.mainsnak with
  | none => .ok none
  | some snak =>
    match snak.datavalue with
    | none => .ok none
    | some dv => do
      let v ← pyGetD dv "value" (JValue.jobj [])
      pyGetOpt v "numeric-id"

/-- The NER tag one P31 claim value contributes, per the spec: PERS for the
canonical human identifier (numeric id 5), else LOC if in the location
taxonomy set, else ORG if in the organization set, else OTHERS. -/
def specNerTag (geolocation_subclass organization_subclass : List Int)
    (nid : Option JValue) : String :=
  if pyEqInt nid 5 then "PERS"
  else if pyMemInt nid geolocation_subclass then "LOC"
  else if pyMemInt nid organization_subclass then "ORG"
  else "OTHERS"

/-- `ner_counter[tag] += 1` on an insertion-ordered counter. -/
def counterAdd (cnt : List (String × Nat)) (k : String) : List (String × Nat) :=
  if cnt.any (·.1 = k) then
    cnt.map (fun p => if p.1 = k then (p.1, p.2 + 1) else p)
  else cnt ++ [(k, 1)]

/-- The second half of the NER block: `for ner_type in ner_counter:` append
the matching tag to `NERtype`. -/
def renderCounter (cnt : List (String × Nat)) : List String :=
  cnt.foldl (fun acc p =>
    if p.1 = "ORG" then acc ++ ["ORG"]
    else if p.1 = "PERS" then acc ++ ["PERS"]
    else if p.1 = "LOC" then acc ++ ["LOC"]
    else if p.1 = "OTHERS" then acc ++ ["OTHERS"]
    else acc) []

/-- One iteration of the NER classification loop: extract the claim's
numeric id, classify it with the PERS/LOC/ORG/OTHERS chain of the script
(embodied in `specNerTag`), and count the tag. -/
def nerStep (geolocation_subclass organization_subclass : List Int)
    (cnt : List (String × Nat)) (c : Claim) :
    Except PErr (List (String × Nat)) := do
  let nid ← claimNumericId c
  pure (counterAdd cnt
    (specNerTag geolocation_subclass organization_subclass nid))

/-- The NER classification loop over the `P31` claims (script lines
312-339): build `ner_counter`, then append each counter key's tag. -/
def nerTags (geolocation_subclass organization_subclass : List Int)
    (p31_claims : List Claim) : Except PErr (List String) :=
  if p31_claims.length ≠ 0 then do
    let cnt ← p31_claims.foldlM
      (nerStep geolocation_subclass organization_subclass) []
    pure (renderCounter cnt)
  else pure []

/-- The explicit-type loop (script lines 344-352):
`types_list.append("Q" + str(type_numeric_id))`. -/
def typesListOf (p31_claims : List Claim) : Except PErr (List String) :=
  p31_claims.mapM (fun c => do
    let nid ← claimNumericId c
    pure ("Q" ++ pyStrOpt nid))

/-- Category assignment (script lines 285-293): `"type"` if some predicate
is `P279`, `"predicate"` if the identifier starts with `P` (`entity[0]`
raises `IndexError` on an empty identifier), else `"entity"`. -/
def computeCategory (item : RawEntity) : Except PErr String :=
  let found := item.claims.any (fun p => p.1 = "P279")
  let category := if found then "type" else "entity"
  if item.id = "" then .error PErr.indexError
  else if item.id.front = 'P' then .ok "predicate"
  else .ok category

/-- The NER + explicit-type phase, guarded by
`item.get("type") == "item" and "claims" in item` (the second conjunct is
always true here since `item["claims"]` was already accessed).  Returns the
`NERtype` list and `some types_list` when the guard holds; when it does not,
`NERtype` stays `[]` and `types_list` stays unassigned (`none`). -/
def nerPhase (geolocation_subclass organization_subclass : List Int)
    (item : RawEntity) : Except PErr (List String × Option (List String)) :=
  if item.etype = some "item" then do
    let p31_claims := (item.claims.lookup "P31").getD []
    let nertype ← nerTags geolocation_subclass organization_subclass p31_claims
    let types_list ← typesListOf p31_claims
    pure (nertype, some types_list)
  else pure ([], none)

/-- URL extraction (script lines 363-377).  The surrounding
`except json.decoder.JSONDecodeError` is dead code (nothing in the block
decodes JSON), so `sitelinks["enwiki"]` raising `KeyError` propagates. -/
def urlExtraction (item : RawEntity) : Except PErr (List (String × String)) :=
  let lang := ((item.labels.lookup "en").map (·.language)).getD ""
  match item.sitelinks.lookup "enwiki" with
  | none => .error (PErr.keyError "enwiki")
  | some sl =>
    let t := sl.title.replace " " "_"
    .ok [("wikidata", "http://www.wikidata.org/wiki/" ++ item.id),
         ("wikipedia", "http://" ++ lang ++ ".wikipedia.org/wiki/" ++ t),
         ("dbpedia", "http://dbpedia.org/resource/" ++ t)]

/-- `objects[value].append(predicate)` with creation of the key on first
use; dict keys are compared with Python `==`. -/
def appendObj (objects : List (JValue × List String)) (value : JValue)
    (predicate : String) : List (JValue × List String) :=
  if objects.any (fun p => jvalBeq p.1 value) then
    objects.map (fun p => if jvalBeq p.1 value then (p.1, p.2 ++ [predicate]) else p)
  else objects ++ [(value, [predicate])]

/-- `types["P31"].append(value)` (the key `"P31"` always exists). -/
def appendTypes (ts : List (String × List JValue)) (v : JValue) :
    List (String × List JValue) :=
  ts.map (fun p => if p.1 = "P31" then (p.1, p.2 ++ [v]) else p)

/-- `lit[predicate].append(value)` with creation of the key on first use. -/
def appendPred (m : List (String × List JValue)) (k : String) (v : JValue) :
    List (String × List JValue) :=
  if m.any (·.1 = k) then
    m.map (fun q => if q.1 = k then (q.1, q.2 ++ [v]) else q)
  else m ++ [(k, [v])]

/-- `literals[DATATYPES_MAPPINGS[datatype]][predicate].append(value)`. -/
def appendLit (lits : List (String × List (String × List JValue)))
    (cat predicate : String) (v : JValue) :
    List (String × List (String × List JValue)) :=
  lits.map (fun p => if p.1 = cat then (p.1, appendPred p.2 predicate v) else p)

/-- The three buckets mutated by the claim-decomposition loop. -/
structure DecompState where
  objects : List (JValue × List String)
  literals : List (String × List (String × List JValue))
  types : List (String × List JValue)

/-- Initial buckets: `objects = \x7b\x7d`,
`literals = \x7bdatatype: \x7b\x7d for datatype in DATATYPES\x7d`,
`types = \x7b"P31": []\x7d`. -/
def initDecomp : DecompState :=
  { objects := [],
    literals := DATATYPES.map (fun c => (c, [])),
    types := [("P31", [])] }

/-- One iteration of the claim-decomposition loop (script lines 412-433)
for predicate `predicate` and claim `obj`. -/
def decompStep (predicate : String) (st : DecompState) (obj : Claim) :
    Except PErr DecompState := do
  let snak ← match obj.mainsnak with
             | some s => Except.ok s
             | none => Except.error (PErr.keyError "mainsnak")
  let datatype := snak.datatype
  if check_skip snak datatype then pure st
  else if datatype = "wikibase-item" ∨ datatype = "wikibase-property" then do
    let dv ← match snak.datavalue with
             | some dv => Except.ok dv
             | none => Except.error (PErr.keyError "datavalue")
    let v ← pyIndex dv "value"
    let value ← pyIndex v "id"
    let st := if predicate = "P31" ∨ predicate = "P106"
              then { st with types := appendTypes st.types value } else st
    pure { st with objects := appendObj st.objects value predicate }
  else do
    let value ← get_value snak
    let cat ← match DATATYPES_MAPPINGS.lookup datatype with
              | some c => Except.ok c
              | none => Except.error (PErr.keyError datatype)
    pure { st with literals := appendLit st.literals cat predicate value }

/-- The full claim-decomposition loop over all predicates. -/
def decompose (claims : List (String × List Claim)) : Except PErr DecompState :=
  claims.foldlM (fun st p => p.2.foldlM (decompStep p.1) st) initDecomp

/-- The `items` record of the `join` dict.  Its `types` field aliases the
`types` bucket and `extended_WDtypes` / `explicit_WDtypes` come from the
transitive-closure phase. -/
structure ItemRec where
  id_entity : Nat
  entity : String
  description : Option LangValue
  labels : List (String × String)
  aliases : List (String × List String)
  types : List (String × List JValue)
  popularity : Nat
  kind : String
  NERtype : List String
  URLs : List (String × String)
  extended_WDtypes : List String
  explicit_WDtypes : List String

/-- The `objects` record of the `join` dict. -/
structure ObjectsRec where
  id_entity : Nat
  entity : String
  objects : List (JValue × List String)

/-- The `literals` record of the `join` dict. -/
structure LiteralsRec where
  id_entity : Nat
  entity : String
  literals : List (String × List (String × List JValue))

/-- The `types` record of the `join` dict. -/
structure TypesRec where
  id_entity : Nat
  entity : String
  types : List (String × List JValue)

/-- The `join` dict: the four derived records of one entity.  (The source
dict literal repeats the `objects`/`literals`/`types` keys with identical
values; only one assignment survives.) -/
structure Join where
  items : ItemRec
  objects : ObjectsRec
  literals : LiteralsRec
  types : TypesRec

/-- `parse_data(item, i, geolocation_subclass, organization_subclass)`
(script lines 264-433), without the trailing buffer append (modelled in the
pipeline step).  Returns the list of arguments passed to
`retrieve_superclasses` (one call per element of `types_list`, in order,
made before URL extraction) together with either the four derived records
or the Python error raised.  `superEnv` gives the remote's answer for each
superclass lookup.  In the source the `join` dict is built before the
decomposition loop, but the loop mutates the very dict objects stored in
`join`, so the persisted records carry the post-loop buckets; the model
therefore decomposes first and then builds the records. -/
def parse_data (superEnv : String → List String)
    (geolocation_subclass organization_subclass : List Int)
    (item : RawEntity) (i : Nat) : List String × Except PErr Join :=
  let entity := item.id
  let description := item.descriptions.lookup "en"
  let popularity := if item.sitelinks.length > 0 then item.sitelinks.length else 1
  let all_labels := item.labels.map (fun p => (p.1, p.2.value))
  let all_aliases := item.aliases.map
    (fun p => (p.1, dedupFirst (p.2.map (·.value))))
  match computeCategory item with
  | .error e => ([], .error e)
  | .ok category =>
    match nerPhase geolocation_subclass organization_subclass item with
    | .error e => ([], .error e)
    | .ok (_, none) =>
      -- `for el in types_list` with `types_list` never assigned
      ([], .error (PErr.nameError "types_list"))
    | .ok (nertype, some types_list) =>
      let extended_WDtypes :=
        dedupFirst (types_list.foldl (fun acc el => acc ++ superEnv el) [])
      (types_list,
        match urlExtraction item with
        | .error e => .error e
        | .ok url_dict =>
          match decompose item.claims with
          | .error e => .error e
          | .ok d =>
            .ok { items := { id_entity := i, entity := entity,
                             description := description, labels := all_labels,
                             aliases := all_aliases, types := d.types,
                             popularity := popularity, kind := category,
                             NERtype := nertype, URLs := url_dict,
                             extended_WDtypes := extended_WDtypes,
                             explicit_WDtypes := types_list },
                  objects := { id_entity := i, entity := entity,
                               objects := d.objects },
                  literals := { id_entity := i, entity := entity,
                                literals := d.literals },
                  types := { id_entity := i, entity := entity,
                             types := d.types } })

/-- The four in-memory buffers (`buffer = \x7b"items": [], "objects": [],
"literals": [], "types": []\x7d`). -/
structure Buffers where
  items : List ItemRec
  objects : List ObjectsRec
  literals : List LiteralsRec
  types : List TypesRec

/-- All four buffers empty. -/
def emptyBuffers : Buffers := ⟨[], [], [], []⟩

/-- One `insert_many` bulk insert into a destination collection. -/
inductive InsertEvent where
  | items (rs : List ItemRec)
  | objects (rs : List ObjectsRec)
  | literals (rs : List LiteralsRec)
  | types (rs : List TypesRec)

/-- The collection an insert event targets. -/
def eventKind : InsertEvent → String
  | .items _ => "items"
  | .objects _ => "objects"
  | .literals _ => "literals"
  | .types _ => "types"

/-- Number of bulk inserts into collection `k` among the events `evs`. -/
def countKind (k : String) (evs : List InsertEvent) : Nat :=
  (evs.filter (fun e => eventKind e = k)).length

/-- `flush_buffer(buffer)`: bulk-insert each non-empty buffer (in the dict's
insertion order items, objects, literals, types) and clear it. -/
def flush_buffer (b : Buffers) : List InsertEvent × Buffers :=
  ((if b.items.length > 0 then [InsertEvent.items b.items] else []) ++
   (if b.objects.length > 0 then [InsertEvent.objects b.objects] else []) ++
   (if b.literals.length > 0 then [InsertEvent.literals b.literals] else []) ++
   (if b.types.length > 0 then [InsertEvent.types b.types] else []),
   emptyBuffers)

/-- Append one entity's derived records to every buffer
(`for key in buffer: buffer[key].append(join[key])`). -/
def appendJoin (b : Buffers) (j : Join) : Buffers :=
  { items := b.items ++ [j.items],
    objects := b.objects ++ [j.objects],
    literals := b.literals ++ [j.literals],
    types := b.types ++ [j.types] }

/-- The tail of `parse_data` (script lines 435-439): append the records,
then flush when the `items` buffer reaches `BATCH_SIZE`. -/
def bufferStep (b : Buffers) (evs : List InsertEvent) (j : Join) :
    Buffers × List InsertEvent :=
  let b1 := appendJoin b j
  if b1.items.length = BATCH_SIZE then
    let fe := flush_buffer b1
    (fe.2, evs ++ fe.1)
  else (b1, evs)

/-- Fold `bufferStep` over a stream of derived-record bundles. -/
def foldJoins (p : Buffers × List InsertEvent) (js : List Join) :
    Buffers × List InsertEvent :=
  js.foldl (fun q j => bufferStep q.1 q.2 j) p

/-- End-of-stream flush (script lines 555-556):
`if len(buffer["items"]) > 0: flush_buffer(buffer)`. -/
def endFlush (p : Buffers × List InsertEvent) : Buffers × List InsertEvent :=
  if p.1.items.length > 0 then
    let fe := flush_buffer p.1
    (fe.2, p.2 ++ fe.1)
  else p

/-- One document of the `log` collection
(`\x7b"entity": ..., "error": str(e), "traceback_str": ...\x7d`). -/
structure ErrorRecord where
  entity : String
  error : String
  traceback_str : String

/-- The outcome of `json.loads` on one (truncated) line. -/
inductive LineResult where
  | malformed
  | parsed (item : RawEntity)

/-- The mutable state of one run of the main loop: the buffers, the bulk
inserts performed so far, the error log, and the arguments of every
`retrieve_superclasses` call made so far. -/
structure PState where
  buffer : Buffers
  inserts : List InsertEvent
  errors : List ErrorRecord
  superCalls : List String

/-- The initial pipeline state. -/
def initState : PState := ⟨emptyBuffers, [], [], []⟩

/-- One iteration of the main loop (script lines 538-553) on an
already-decoded line: a malformed line is skipped silently; a parsed entity
is classified, its records buffered (flushing at the batch size), and any
processing exception is logged to the error sink with the entity identifier
and the message/traceback, dropping the entity. -/
def stepLine (superEnv : String → List String)
    (geolocation_subclass organization_subclass : List Int)
    (st : PState) (i : Nat) (line : LineResult) : PState :=
  match line with
  | .malformed => st
  | .parsed item =>
    let pr := parse_data superEnv geolocation_subclass organization_subclass item i
    match pr.2 with
    | .error e =>
      { st with superCalls := st.superCalls ++ pr.1,
                errors := st.errors ++
                  [{ entity := item.id, error := errMsg e,
                     traceback_str := errMsg e }] }
    | .ok j =>
      let be := bufferStep st.buffer st.inserts j
      { st with superCalls := st.superCalls ++ pr.1,
                buffer := be.1, inserts := be.2 }

/-- `for i, line in enumerate(file)`: fold the per-line step over the
stream, threading the line index. -/
def runLines (superEnv : String → List String)
    (geolocation_subclass organization_subclass : List Int) :
    PState → Nat → List LineResult → PState
  | st, _, [] => st
  | st, i, l :: ls =>
    runLines superEnv geolocation_subclass organization_subclass
      (stepLine superEnv geolocation_subclass organization_subclass st i l)
      (i + 1) ls

/-- The main loop of `parse_wikidata_dump` plus the end-of-stream flush,
over an already-decoded stream of lines. -/
def runPipeline (superEnv : String → List String)
    (geolocation_subclass organization_subclass : List Int)
    (lines : List LineResult) : PState :=
  let st := runLines superEnv geolocation_subclass organization_subclass
    initState 0 lines
  let fe := endFlush (st.buffer, st.inserts)
  { st with buffer := fe.1, inserts := fe.2 }

/-- `json.loads(line[:-2])` — the JSON decoder (abstracted as `decode`,
standing for `json.loads`, which returns `none` on a `JSONDecodeError`) is
applied to the raw line with its final two bytes removed. -/
def decodeLine (decode : String → Option RawEntity) (line : String) :
    LineResult :=
  match decode (line.dropRight 2) with
  | some item => LineResult.parsed item
  | none => LineResult.malformed

/-- The outcome of one `get_wikidata_item_tree_item_idsSPARQL` call: the
post-processed list of numeric ids, a `json.decoder.JSONDecodeError`, or
any other exception (connection errors, missing keys in the response, ...). -/
inductive QueryOutcome where
  | ok (ids : List Int)
  | decodeError
  | otherError

/-- One `try: xs = get_wikidata_item_tree_item_idsSPARQL(...) except
json.decoder.JSONDecodeError: xs = []` block: only decode errors are
caught; any other failure propagates. -/
def tryQueryOrEmpty (o : QueryOutcome) : Except PErr (List Int) :=
  match o with
  | .ok ids => .ok ids
  | .decodeError => .ok []
  | .otherError => .error PErr.queryError

/-- The ids a query outcome contributed (a caught decode error contributes
the empty set). -/
def queryIds (o : QueryOutcome) : List Int :=
  match o with
  | .ok ids => ids
  | _ => []

/-- `list(set(base) - set(e1) - ... - set(en))`: exact set difference; the
Python set order is fixed here as first occurrence. -/
def removeOverlaps (base : List Int) (excls : List (List Int)) : List Int :=
  (base.dedup).filter (fun x => excls.all (fun e => ¬ x ∈ e))

/-- Taxonomy construction (script lines 442-535): the fifteen root queries,
each individually guarded against decode errors, and the two set-difference
exclusions.  `env` maps a root item id to its query outcome.  Returns
`(geolocation_subclass, organization_subclass)`. -/
def buildTaxonomy (env : Int → QueryOutcome) :
    Except PErr (List Int × List Int) := do
  let organization_subclass ← tryQueryOrEmpty (env 43229)
  let country_subclass ← tryQueryOrEmpty (env 6256)
  let city_subclass ← tryQueryOrEmpty (env 515)
  let capitals_subclass ← tryQueryOrEmpty (env 5119)
  let admTerr_subclass ← tryQueryOrEmpty (env 15916867)
  let family_subclass ← tryQueryOrEmpty (env 17350442)
  let sportLeague_subclass ← tryQueryOrEmpty (env 623109)
  let venue_subclass ← tryQueryOrEmpty (env 8436)
  let organization_subclass := removeOverlaps organization_subclass
    [country_subclass, city_subclass, capitals_subclass, admTerr_subclass,
     family_subclass, sportLeague_subclass, venue_subclass]
  let geolocation_subclass ← tryQueryOrEmpty (env 2221906)
  let food_subclass ← tryQueryOrEmpty (env 2095)
  let edInst_subclass ← tryQueryOrEmpty (env 2385804)
  let govAgency_subclass ← tryQueryOrEmpty (env 327333)
  let intOrg_subclass ← tryQueryOrEmpty (env 484652)
  let timeZone_subclass ← tryQueryOrEmpty (env 12143)
  let geolocation_subclass := removeOverlaps geolocation_subclass
    [food_subclass, edInst_subclass, govAgency_subclass, intOrg_subclass,
     timeZone_subclass]
  pure (geolocation_subclass, organization_subclass)

/-- The mainsnak of an `instance of: human` claim (`P31 → Q5`), as it
appears in the dump. -/
def humanSnak : Snak where
  datatype := "wikibase-item"
  datavalue := some (JValue.jobj
    [("value", JValue.jobj [("entity-type", JValue.jstr "item"),
                            ("numeric-id", JValue.jnum 5),
                            ("id", JValue.jstr "Q5")]),
     ("type", JValue.jstr "wikibase-entityid")])

/-- An `instance of: human` claim. -/
def humanClaim : Claim := { mainsnak := some humanSnak }

/-- A well-formed item entity whose claims are exactly
`\x7bP31: [Q5]\x7d`. -/
def humanEntity : RawEntity where
  id := "Q42"
  etype := some "item"
  labels := []
  aliases := []
  descriptions := []
  sitelinks := [("enwiki", { title := "Douglas Adams" })]
  claims := [("P31", [humanClaim])]

/-- A second such entity with a different identifier. -/
def humanEntity2 : RawEntity where
  id := "Q43"
  etype := some "item"
  labels := []
  aliases := []
  descriptions := []
  sitelinks := [("enwiki", { title := "Other Human" })]
  claims := [("P31", [humanClaim])]

/-- An entity whose top-level `type` is not `"item"` (e.g. a property
record). -/
def nonItemEntity : RawEntity where
  id := "Q99"
  etype := none
  labels := []
  aliases := []
  descriptions := []
  sitelinks := []
  claims := []

/-- A superclass environment in which every lookup returns no ancestors. -/
def superEnvNone : String → List String := fun _ => []

/-- Effect of one main-loop iteration when classification raises: the
buffers are untouched and exactly one error document is appended. -/
theorem stepLine_error_eff (superEnv : String → List String)
    (geo org : List Int) (st : PState) (i : Nat) (item : RawEntity)
    (e : PErr)
    (h : (parse_data superEnv geo org item i).2 = Except.error e) :
    stepLine superEnv geo org st i (LineResult.parsed item) =
      { st with
        superCalls := st.superCalls ++ (parse_data superEnv geo org item i).1,
        errors := st.errors ++
          [{ entity := item.id, error := errMsg e,
             traceback_str := errMsg e }] } := by
  simp only [stepLine]
  rw [h]

/-- The record/insert/error effect of an erroring entity, split into the
three components used by several claims. -/
theorem stepLine_error_parts (superEnv : String → List String)
    (geo org : List Int) (st : PState) (i : Nat) (item : RawEntity)
    (e : PErr)
    (h : (parse_data superEnv geo org item i).2 = Except.error e) :
    (stepLine superEnv geo org st i (LineResult.parsed item)).buffer
        = st.buffer ∧
    (stepLine superEnv geo org st i (LineResult.parsed item)).inserts
        = st.inserts ∧
    (stepLine superEnv geo org st i (LineResult.parsed item)).errors
        = st.errors ++
          [{ entity := item.id, error := errMsg e,
             traceback_str := errMsg e }] := by
  have hs := stepLine_error_eff superEnv geo org st i item e h
  exact ⟨by rw [hs], by rw [hs], by rw [hs]⟩

/-- C4: an entity that parses as JSON but fails during classification
yields exactly one error-log document (with its identifier, message and
traceback context), no derived records (buffers and inserts untouched),
and the loop continues with the next line. -/
theorem c4_error_isolated (superEnv : String → List String)
    (geo org : List Int) (st : PState) (i : Nat) (item : RawEntity)
    (e : PErr)
    (h : (parse_data superEnv geo org item i).2 = Except.error e) :
    (stepLine superEnv geo org st i (LineResult.parsed item)).buffer
        = st.buffer ∧
    (stepLine superEnv geo org st i (LineResult.parsed item)).inserts
        = st.inserts ∧
    (stepLine superEnv geo org st i (LineResult.parsed item)).errors
        = st.errors ++
          [{ entity := item.id, error := errMsg e,
             traceback_str := errMsg e }] ∧
    ∀ ls, runLines superEnv geo org st i (LineResult.parsed item :: ls) =
      runLines superEnv geo org
        (stepLine superEnv geo org st i (LineResult.parsed item)) (i + 1) ls := by
  have hp := stepLine_error_parts superEnv geo org st i item e h
  exact ⟨hp.1, hp.2.1, hp.2.2, fun ls => rfl⟩

/-- Witness for C4 at a concrete failing entity (top-level type is not
`"item"`, so classification raises on the unassigned `types_list`). -/
theorem c4_error_isolated_witness :
    (stepLine superEnvNone [] [] initState 0
        (LineResult.parsed nonItemEntity)).buffer = initState.buffer ∧
    (stepLine superEnvNone [] [] initState 0
        (LineResult.parsed nonItemEntity)).inserts = initState.inserts ∧
    (stepLine superEnvNone [] [] initState 0
        (LineResult.parsed nonItemEntity)).errors = initState.errors ++
      [{ entity := "Q99",
         error := errMsg (PErr.nameError "types_list"),
         traceback_str := errMsg (PErr.nameError "types_list") }] := by
  have h := c4_error_isolated superEnvNone [] [] initState 0 nonItemEntity
    (PErr.nameError "types_list") rfl
  exact ⟨h.1, h.2.1, h.2.2.1⟩

/-- C8: a malformed input line produces zero derived records and zero
error-log entries, and the loop continues with the next line. -/
theorem c8_malformed_silent (superEnv : String → List String)
    (geo org : List Int) (st : PState) (i : Nat) (ls : List LineResult) :
    stepLine superEnv geo org st i LineResult.malformed = st ∧
    runLines superEnv geo org st i (LineResult.malformed :: ls) =
      runLines superEnv geo org st (i + 1) ls :=
  ⟨rfl, rfl⟩

/-- C10: the JSON decoder is applied to each raw line with its final two
bytes removed (`json.loads(line[:-2])`); consequently a line whose JSON
payload extends into its last two bytes — one the decoder accepts whole
but rejects truncated — is treated as malformed and silently dropped. -/
theorem c10_truncate_two_bytes (decode : String → Option RawEntity)
    (line : String) (superEnv : String → List String) (geo org : List Int)
    (st : PState) (i : Nat) (item : RawEntity) :
    (decodeLine decode line =
      match decode (line.dropRight 2) with
      | some it => LineResult.parsed it
      | none => LineResult.malformed) ∧
    (decode line = some item → decode (line.dropRight 2) = none →
      stepLine superEnv geo org st i (decodeLine decode line) = st) := by
  refine ⟨rfl, fun _ h2 => ?_⟩
  simp only [decodeLine, h2]
  rfl

/-- A final dump line whose JSON payload occupies the entire line (no
trailing comma and newline). -/
def lastLine : String := "\x7b\"id\": \"Q42\"\x7d"

/-- A decoder accepting exactly that line (a stand-in for `json.loads` on
this input). -/
def decodeFixture : String → Option RawEntity :=
  fun s => if s = lastLine then some humanEntity else none

/-- Witness for C10: the final line decodes whole but not truncated, and
the pipeline drops it with no state change. -/
theorem c10_truncate_two_bytes_witness :
    decodeFixture lastLine = some humanEntity ∧
    decodeFixture (lastLine.dropRight 2) = none ∧
    stepLine superEnvNone [] [] initState 0
      (decodeLine decodeFixture lastLine) = initState := by
  have h1 : decodeFixture lastLine = some humanEntity := by
    simp [decodeFixture]
  have h2 : decodeFixture (lastLine.dropRight 2) = none := by
    have hne : lastLine.dropRight 2 ≠ lastLine := by decide
    simp [decodeFixture, hne]
  exact ⟨h1, h2,
    (c10_truncate_two_bytes decodeFixture lastLine superEnvNone [] []
      initState 0 humanEntity).2 h1 h2⟩

/-- C2: derived records are produced only for entities whose top-level
`type` is `"item"` and whose sitelinks contain `"enwiki"`; every entity
violating either condition makes classification raise (the unassigned
`types_list`, or the uncaught `KeyError` on `sitelinks["enwiki"]`), so it
yields exactly one error-log document and no derived records. -/
theorem c2_item_enwiki_guard :
    (∀ (superEnv : String → List String) (geo org : List Int)
       (item : RawEntity) (i : Nat) (j : Join),
       (parse_data superEnv geo org item i).2 = Except.ok j →
       item.etype = some "item" ∧ (item.sitelinks.lookup "enwiki").isSome) ∧
    (∀ (superEnv : String → List String) (geo org : List Int)
       (st : PState) (i : Nat) (item : RawEntity),
       item.etype ≠ some "item" ∨ item.sitelinks.lookup "enwiki" = none →
       ∃ e, (parse_data superEnv geo org item i).2 = Except.error e ∧
         (stepLine superEnv geo org st i (LineResult.parsed item)).buffer
             = st.buffer ∧
         (stepLine superEnv geo org st i (LineResult.parsed item)).inserts
             = st.inserts ∧
         (stepLine superEnv geo org st i (LineResult.parsed item)).errors
             = st.errors ++
               [{ entity := item.id, error := errMsg e,
                  traceback_str := errMsg e }]) := by
  constructor
  · intro superEnv geo org item i j h
    simp only [parse_data] at h
    cases hcat : computeCategory item with
    | error e => rw [hcat] at h; simp at h
    | ok cat =>
      rw [hcat] at h
      cases hner : nerPhase geo org item with
      | error e => rw [hner] at h; simp at h
      | ok pr =>
        rw [hner] at h
        obtain ⟨ner, tlOpt⟩ := pr
        cases tlOpt with
        | none => simp at h
        | some tl =>
          have hitem : item.etype = some "item" := by
            by_contra hne
            rw [nerPhase, if_neg hne] at hner
            simp [pure, Except.pure] at hner
          refine ⟨hitem, ?_⟩
          cases hurl : urlExtraction item with
          | error e => rw [hurl] at h; simp at h
          | ok urls =>
            rw [urlExtraction] at hurl
            cases hsl : item.sitelinks.lookup "enwiki" with
            | none => rw [hsl] at hurl; simp at hurl
            | some sl => simp [hsl]
  · intro superEnv geo org st i item h
    have werr : ∀ e, (parse_data superEnv geo org item i).2 = Except.error e →
        ∃ e, (parse_data superEnv geo org item i).2 = Except.error e ∧
          (stepLine superEnv geo org st i (LineResult.parsed item)).buffer
              = st.buffer ∧
          (stepLine superEnv geo org st i (LineResult.parsed item)).inserts
              = st.inserts ∧
          (stepLine superEnv geo org st i (LineResult.parsed item)).errors
              = st.errors ++
                [{ entity := item.id, error := errMsg e,
                   traceback_str := errMsg e }] := by
      intro e he
      have hp := stepLine_error_parts superEnv geo org st i item e he
      exact ⟨e, he, hp.1, hp.2.1, hp.2.2⟩
    cases h with
    | inl hne =>
      have hner : nerPhase geo org item = Except.ok ([], none) := by
        rw [nerPhase, if_neg hne]; rfl
      cases hcat : computeCategory item with
      | error e => exact werr e (by simp [parse_data, hcat])
      | ok cat =>
        exact werr (PErr.nameError "types_list")
          (by simp [parse_data, hcat, hner])
    | inr hsl =>
      cases hcat : computeCategory item with
      | error e => exact werr e (by simp [parse_data, hcat])
      | ok cat =>
        cases hner : nerPhase geo org item with
        | error e => exact werr e (by simp [parse_data, hcat, hner])
        | ok pr =>
          obtain ⟨ner, tlOpt⟩ := pr
          cases tlOpt with
          | none =>
            exact werr (PErr.nameError "types_list")
              (by simp [parse_data, hcat, hner])
          | some tl =>
            have hurl : urlExtraction item = Except.error (PErr.keyError "enwiki") := by
              rw [urlExtraction, hsl]
            exact werr (PErr.keyError "enwiki")
              (by simp [parse_data, hcat, hner, hurl])

/-- Witness for C2 at a concrete violating entity (type is not `"item"`). -/
theorem c2_item_enwiki_guard_witness :
    ∃ e, (parse_data superEnvNone [] [] nonItemEntity 0).2 = Except.error e ∧
      (stepLine superEnvNone [] [] initState 0
          (LineResult.parsed nonItemEntity)).buffer = initState.buffer ∧
      (stepLine superEnvNone [] [] initState 0
          (LineResult.parsed nonItemEntity)).inserts = initState.inserts ∧
      (stepLine superEnvNone [] [] initState 0
          (LineResult.parsed nonItemEntity)).errors = initState.errors ++
        [{ entity := nonItemEntity.id,
           error := errMsg e, traceback_str := errMsg e }] :=
  c2_item_enwiki_guard.2 superEnvNone [] [] initState 0 nonItemEntity
    (Or.inl (by simp [nonItemEntity]))

/-- C1 counterexample: for the concrete well-formed entity whose claims
are exactly `\x7bP31: [Q5]\x7d`, processing succeeds but the objects
mapping is `\x7bQ5 ↦ [P31]\x7d` — the P31 claim is recorded as an object
relation too — refuting the claim's "empty objects mapping". -/
theorem c1_round_trip_counterexample :
    (∃ j, (parse_data superEnvNone [] [] humanEntity 0).2 = Except.ok j ∧
       j.objects.objects = [(JValue.jstr "Q5", ["P31"])]) ∧
    [(JValue.jstr "Q5", ["P31"])] ≠ ([] : List (JValue × List String)) :=
  ⟨⟨_, rfl, rfl⟩, fun h => List.noConfusion h⟩

/-- The literal buckets start (and, with only a P31 claim, stay) empty for
every datatype category. -/
theorem literals_init_empty :
    ∀ c ∈ DATATYPES,
      (DATATYPES.map
        (fun c => (c, ([] : List (String × List JValue))))).lookup c
        = some [] := by
  have hD : DATATYPES = ["STRING", "NUMBER", "DATETIME", "GEOSHAPE",
      "MATH", "MUSICAL_NOTATION", "TABULAR_DATA"] := rfl
  intro c hc
  rw [hD] at hc
  fin_cases hc <;> rfl

/-- C1 (amended): for every entity with a nonempty identifier outside the
predicate namespace, top-level type `"item"`, an `enwiki` sitelink, and
claims exactly `\x7bP31: [Q5]\x7d`, processing yields category `"entity"`,
NER tags `["PERS"]`, objects `\x7bQ5 ↦ [P31]\x7d` (not empty), empty
literal buckets for every datatype category, and types
`\x7bP31: [Q5]\x7d`. -/
theorem c1_round_trip_amended (superEnv : String → List String)
    (geo org : List Int) (item : RawEntity) (i : Nat) (sl : Sitelink)
    (hty : item.etype = some "item")
    (hcl : item.claims = [("P31", [humanClaim])])
    (hsl : item.sitelinks.lookup "enwiki" = some sl)
    (hid : item.id ≠ "") (hpfx : item.id.front ≠ 'P') :
    ∃ j, (parse_data superEnv geo org item i).2 = Except.ok j ∧
      j.items.kind = "entity" ∧
      j.items.NERtype = ["PERS"] ∧
      j.objects.objects = [(JValue.jstr "Q5", ["P31"])] ∧
      (∀ c ∈ DATATYPES, j.literals.literals.lookup c = some []) ∧
      j.types.types = [("P31", [JValue.jstr "Q5"])] := by
  have hcat : computeCategory item = Except.ok "entity" := by
    rw [computeCategory, hcl]
    simp [hid, hpfx]
  have hner : nerPhase geo org item = Except.ok (["PERS"], some ["Q5"]) := by
    rw [nerPhase, if_pos hty, hcl]
    rfl
  obtain ⟨urls, hurl⟩ : ∃ urls, urlExtraction item = Except.ok urls := by
    rw [urlExtraction, hsl]; exact ⟨_, rfl⟩
  have hdec : decompose item.claims = Except.ok
      { objects := [(JValue.jstr "Q5", ["P31"])],
        literals := DATATYPES.map (fun c => (c, [])),
        types := [("P31", [JValue.jstr "Q5"])] } := by
    rw [hcl]; rfl
  simp only [parse_data, hcat, hner, hurl, hdec]
  exact ⟨_, rfl, rfl, rfl, rfl, literals_init_empty, rfl⟩

/-- Witness for the amended C1 at the concrete entity. -/
theorem c1_round_trip_witness :
    ∃ j, (parse_data superEnvNone [] [] humanEntity 0).2 = Except.ok j ∧
      j.items.kind = "entity" ∧
      j.items.NERtype = ["PERS"] ∧
      j.objects.objects = [(JValue.jstr "Q5", ["P31"])] ∧
      (∀ c ∈ DATATYPES, j.literals.literals.lookup c = some []) ∧
      j.types.types = [("P31", [JValue.jstr "Q5"])] :=
  c1_round_trip_amended superEnvNone [] [] humanEntity 0
    { title := "Douglas Adams" } rfl rfl rfl (by decide) (by decide)

/-- C3: the superclass lookup is NOT cached.  Running the pipeline over
two entities that share the single declared type Q5 invokes
`retrieve_superclasses` for Q5 twice — once per entity — instead of the at
most one remote call per run that the (cached) claim requires. -/
theorem c3_superclasses_uncached :
    (runPipeline superEnvNone [] []
      [LineResult.parsed humanEntity,
       LineResult.parsed humanEntity2]).superCalls = ["Q5", "Q5"] ∧
    ((runPipeline superEnvNone [] []
      [LineResult.parsed humanEntity,
       LineResult.parsed humanEntity2]).superCalls).count "Q5" = 2 :=
  ⟨rfl, rfl⟩

/-- An environment in which the first taxonomy query (organization, root
Q43229) fails with a non-decode error (e.g. a connection error). -/
def envConnFail : Int → QueryOutcome :=
  fun r => if r = 43229 then QueryOutcome.otherError else QueryOutcome.ok []

/-- C5 counterexample: a taxonomy query failing with anything other than a
`JSONDecodeError` is NOT caught — taxonomy construction aborts instead of
degrading to an empty set, refuting "any query failure ... never aborts
taxonomy construction". -/
theorem c5_query_failure_counterexample :
    buildTaxonomy envConnFail = Except.error PErr.queryError := rfl

/-- A query outcome that is not a hard failure yields a result list. -/
theorem tryQuery_ok_of_ne (o : QueryOutcome)
    (h : o ≠ QueryOutcome.otherError) :
    ∃ ids, tryQueryOrEmpty o = Except.ok ids := by
  cases o with
  | ok ids => exact ⟨ids, rfl⟩
  | decodeError => exact ⟨[], rfl⟩
  | otherError => exact absurd rfl h

/-- C5 (amended): a taxonomy query failure that is a JSON decode error is
caught and that closure evaluates to the empty set, and as long as no
query fails with a non-decode error, taxonomy construction never aborts. -/
theorem c5_decode_error_degrades :
    tryQueryOrEmpty QueryOutcome.decodeError = Except.ok [] ∧
    ∀ env : Int → QueryOutcome,
      (∀ r : Int, env r ≠ QueryOutcome.otherError) →
      ∃ t, buildTaxonomy env = Except.ok t := by
  refine ⟨rfl, fun env h => ?_⟩
  obtain ⟨a1, h1⟩ := tryQuery_ok_of_ne _ (h 43229)
  obtain ⟨a2, h2⟩ := tryQuery_ok_of_ne _ (h 6256)
  obtain ⟨a3, h3⟩ := tryQuery_ok_of_ne _ (h 515)
  obtain ⟨a4, h4⟩ := tryQuery_ok_of_ne _ (h 5119)
  obtain ⟨a5, h5⟩ := tryQuery_ok_of_ne _ (h 15916867)
  obtain ⟨a6, h6⟩ := tryQuery_ok_of_ne _ (h 17350442)
  obtain ⟨a7, h7⟩ := tryQuery_ok_of_ne _ (h 623109)
  obtain ⟨a8, h8⟩ := tryQuery_ok_of_ne _ (h 8436)
  obtain ⟨a9, h9⟩ := tryQuery_ok_of_ne _ (h 2221906)
  obtain ⟨a10, h10⟩ := tryQuery_ok_of_ne _ (h 2095)
  obtain ⟨a11, h11⟩ := tryQuery_ok_of_ne _ (h 2385804)
  obtain ⟨a12, h12⟩ := tryQuery_ok_of_ne _ (h 327333)
  obtain ⟨a13, h13⟩ := tryQuery_ok_of_ne _ (h 484652)
  obtain ⟨a14, h14⟩ := tryQuery_ok_of_ne _ (h 12143)
  refine ⟨(removeOverlaps a9 [a10, a11, a12, a13, a14],
           removeOverlaps a1 [a2, a3, a4, a5, a6, a7, a8]), ?_⟩
  simp only [buildTaxonomy, h1, h2, h3, h4, h5, h6, h7, h8, h9, h10, h11,
    h12, h13, h14]
  rfl

/-- Witness for the amended C5: with every query answering a decode error,
construction succeeds (with empty taxonomy sets). -/
theorem c5_decode_error_degrades_witness :
    ∃ t, buildTaxonomy (fun _ => QueryOutcome.decodeError) = Except.ok t :=
  c5_decode_error_degrades.2 (fun _ => QueryOutcome.decodeError)
    (fun _ h => nomatch h)

/-- Splitting a successful `Except` bind. -/
theorem exbind_ok {α β : Type} (x : Except PErr α) (f : α → Except PErr β)
    (v : β) (h : x >>= f = Except.ok v) :
    ∃ a, x = Except.ok a ∧ f a = Except.ok v := by
  cases x with
  | ok a => exact ⟨a, rfl, h⟩
  | error e => exact absurd h (by simp [Bind.bind, Except.bind])

/-- A successful guarded query returns exactly the ids the outcome
contributes. -/
theorem tryQuery_ok_ids (o : QueryOutcome) (ids : List Int)
    (h : tryQueryOrEmpty o = Except.ok ids) : ids = queryIds o := by
  cases o with
  | ok l => cases h; rfl
  | decodeError => cases h; rfl
  | otherError => exact absurd h (by simp [tryQueryOrEmpty])

/-- A successful taxonomy construction yields exactly the two
exclusion-adjusted closures of the environment's answers. -/
theorem buildTaxonomy_ok (env : Int → QueryOutcome) (geo org : List Int)
    (h : buildTaxonomy env = Except.ok (geo, org)) :
    org = removeOverlaps (queryIds (env 43229))
      [queryIds (env 6256), queryIds (env 515), queryIds (env 5119),
       queryIds (env 15916867), queryIds (env 17350442),
       queryIds (env 623109), queryIds (env 8436)] ∧
    geo = removeOverlaps (queryIds (env 2221906))
      [queryIds (env 2095), queryIds (env 2385804), queryIds (env 327333),
       queryIds (env 484652), queryIds (env 12143)] := by
  simp only [buildTaxonomy] at h
  obtain ⟨a1, e1, h⟩ := exbind_ok _ _ _ h
  obtain ⟨a2, e2, h⟩ := exbind_ok _ _ _ h
  obtain ⟨a3, e3, h⟩ := exbind_ok _ _ _ h
  obtain ⟨a4, e4, h⟩ := exbind_ok _ _ _ h
  obtain ⟨a5, e5, h⟩ := exbind_ok _ _ _ h
  obtain ⟨a6, e6, h⟩ := exbind_ok _ _ _ h
  obtain ⟨a7, e7, h⟩ := exbind_ok _ _ _ h
  obtain ⟨a8, e8, h⟩ := exbind_ok _ _ _ h
  obtain ⟨a9, e9, h⟩ := exbind_ok _ _ _ h
  obtain ⟨a10, e10, h⟩ := exbind_ok _ _ _ h
  obtain ⟨a11, e11, h⟩ := exbind_ok _ _ _ h
  obtain ⟨a12, e12, h⟩ := exbind_ok _ _ _ h
  obtain ⟨a13, e13, h⟩ := exbind_ok _ _ _ h
  obtain ⟨a14, e14, h⟩ := exbind_ok _ _ _ h
  rw [tryQuery_ok_ids _ _ e1, tryQuery_ok_ids _ _ e2, tryQuery_ok_ids _ _ e3,
    tryQuery_ok_ids _ _ e4, tryQuery_ok_ids _ _ e5, tryQuery_ok_ids _ _ e6,
    tryQuery_ok_ids _ _ e7, tryQuery_ok_ids _ _ e8] at h
  rw [tryQuery_ok_ids _ _ e9, tryQuery_ok_ids _ _ e10,
    tryQuery_ok_ids _ _ e11, tryQuery_ok_ids _ _ e12,
    tryQuery_ok_ids _ _ e13, tryQuery_ok_ids _ _ e14] at h
  have h2 : Except.ok ((removeOverlaps (queryIds (env 2221906))
      [queryIds (env 2095), queryIds (env 2385804), queryIds (env 327333),
       queryIds (env 484652), queryIds (env 12143)],
     removeOverlaps (queryIds (env 43229))
      [queryIds (env 6256), queryIds (env 515), queryIds (env 5119),
       queryIds (env 15916867), queryIds (env 17350442),
       queryIds (env 623109), queryIds (env 8436)]) :
        List Int × List Int) = Except.ok (geo, org) := h
  have h3 := Except.ok.inj h2
  exact ⟨(congrArg Prod.snd h3).symm, (congrArg Prod.fst h3).symm⟩

/-- C9: the exclusion set-difference is exact (an identifier is a resolved
member iff it is in the base closure and in none of the exclusion sets) and
idempotent; consequently no member of a resolved taxonomy set belongs to
any of its exclusion closures; and re-running construction on identical
remote responses yields identical output. -/
theorem c9_exclusion_exact :
    (∀ (base : List Int) (excls : List (List Int)) (x : Int),
       x ∈ removeOverlaps base excls ↔
         x ∈ base ∧ ∀ e ∈ excls, x ∉ e) ∧
    (∀ (base : List Int) (excls : List (List Int)),
       removeOverlaps (removeOverlaps base excls) excls =
         removeOverlaps base excls) ∧
    (∀ (env : Int → QueryOutcome) (geo org : List Int),
       buildTaxonomy env = Except.ok (geo, org) →
       (∀ x ∈ org,
          x ∉ queryIds (env 6256) ∧ x ∉ queryIds (env 515) ∧
          x ∉ queryIds (env 5119) ∧ x ∉ queryIds (env 15916867) ∧
          x ∉ queryIds (env 17350442) ∧ x ∉ queryIds (env 623109) ∧
          x ∉ queryIds (env 8436)) ∧
       (∀ x ∈ geo,
          x ∉ queryIds (env 2095) ∧ x ∉ queryIds (env 2385804) ∧
          x ∉ queryIds (env 327333) ∧ x ∉ queryIds (env 484652) ∧
          x ∉ queryIds (env 12143))) ∧
    (∀ env1 env2 : Int → QueryOutcome, (∀ r, env1 r = env2 r) →
       buildTaxonomy env1 = buildTaxonomy env2) := by
  have hmem : ∀ (base : List Int) (excls : List (List Int)) (x : Int),
      x ∈ removeOverlaps base excls ↔
        x ∈ base ∧ ∀ e ∈ excls, x ∉ e := by
    intro base excls x
    simp [removeOverlaps, List.mem_filter]
  refine ⟨hmem, ?_, ?_, ?_⟩
  · intro base excls
    unfold removeOverlaps
    rw [List.Nodup.dedup ((List.nodup_dedup base).filter _)]
    rw [List.filter_eq_self]
    intro a ha
    exact (List.mem_filter.mp ha).2
  · intro env geo org h
    obtain ⟨ho, hg⟩ := buildTaxonomy_ok env geo org h
    constructor
    · intro x hx
      rw [ho] at hx
      have := ((hmem _ _ x).mp hx).2
      exact ⟨this _ (by simp), this _ (by simp), this _ (by simp),
        this _ (by simp), this _ (by simp), this _ (by simp),
        this _ (by simp)⟩
    · intro x hx
      rw [hg] at hx
      have := ((hmem _ _ x).mp hx).2
      exact ⟨this _ (by simp), this _ (by simp), this _ (by simp),
        this _ (by simp), this _ (by simp)⟩
  · intro env1 env2 h
    rw [funext h]

/-- A taxonomy environment in which the organization closure and the
country closure overlap on the identifier 2. -/
def envC9 : Int → QueryOutcome :=
  fun r => if r = 43229 then QueryOutcome.ok [1, 2]
    else if r = 6256 then QueryOutcome.ok [2] else QueryOutcome.ok []

/-- Witness for C9: in that environment construction resolves the
organization set to `[1]`, and 1 indeed belongs to none of the exclusion
closures. -/
theorem c9_exclusion_exact_witness :
    (1 : Int) ∉ queryIds (envC9 6256) ∧ (1 : Int) ∉ queryIds (envC9 515) ∧
    (1 : Int) ∉ queryIds (envC9 5119) ∧
    (1 : Int) ∉ queryIds (envC9 15916867) ∧
    (1 : Int) ∉ queryIds (envC9 17350442) ∧
    (1 : Int) ∉ queryIds (envC9 623109) ∧
    (1 : Int) ∉ queryIds (envC9 8436) :=
  ((c9_exclusion_exact.2.2.1 envC9 [] [1] rfl).1) 1 (by simp)

/-- The buffers holding the records of the joins `js`, in stream order. -/
def buffersOf (js : List Join) : Buffers :=
  ⟨js.map (·.items), js.map (·.objects), js.map (·.literals),
   js.map (·.types)⟩

/-- The four bulk inserts that a flush of the buffers of `js` performs. -/
def flushEventsOf (js : List Join) : List InsertEvent :=
  [InsertEvent.items (js.map (·.items)),
   InsertEvent.objects (js.map (·.objects)),
   InsertEvent.literals (js.map (·.literals)),
   InsertEvent.types (js.map (·.types))]

/-- Appending one join to the buffers of a stream prefix. -/
theorem appendJoin_buffersOf (js : List Join) (j : Join) :
    appendJoin (buffersOf js) j = buffersOf (js ++ [j]) := by
  simp [appendJoin, buffersOf]

/-- Flushing the non-empty buffers of a stream emits one insert per record
kind and clears every buffer. -/
theorem flush_buffersOf (js : List Join) (h : js ≠ []) :
    flush_buffer (buffersOf js) = (flushEventsOf js, emptyBuffers) := by
  have hl : 0 < js.length := List.length_pos.mpr h
  simp [flush_buffer, buffersOf, flushEventsOf, hl]

/-- While the `items` buffer stays below the batch size, appends
accumulate and no flush happens. -/
theorem foldJoins_no_flush :
    ∀ (js pre : List Join) (evs : List InsertEvent),
    (pre ++ js).length < BATCH_SIZE →
    foldJoins (buffersOf pre, evs) js = (buffersOf (pre ++ js), evs) := by
  intro js
  induction js with
  | nil => intro pre evs _; simp [foldJoins]
  | cons j js ih =>
    intro pre evs h
    have hlt : pre.length + 1 + js.length < BATCH_SIZE := by
      simpa [Nat.add_comm, Nat.add_assoc, Nat.add_left_comm] using h
    have hstep : bufferStep (buffersOf pre) evs j = (buffersOf (pre ++ [j]), evs) := by
      simp only [bufferStep, appendJoin_buffersOf]
      rw [if_neg]
      simp only [buffersOf, List.length_map, List.length_append,
        List.length_singleton]
      omega
    have : foldJoins (buffersOf pre, evs) (j :: js) =
        foldJoins (buffersOf (pre ++ [j]), evs) js := by
      simp only [foldJoins, List.foldl_cons]
      rw [hstep]
    rw [this, ih (pre ++ [j]) evs (by simp; omega)]
    simp

/-- When the stream exactly fills the batch, its last append triggers the
single flush, leaving every buffer empty. -/
theorem foldJoins_flush :
    ∀ (js pre : List Join) (evs : List InsertEvent),
    (pre ++ js).length = BATCH_SIZE → js ≠ [] →
    foldJoins (buffersOf pre, evs) js =
      (emptyBuffers, evs ++ flushEventsOf (pre ++ js)) := by
  intro js
  induction js with
  | nil => intro pre evs _ hne; exact absurd rfl hne
  | cons j js ih =>
    intro pre evs h _
    cases js with
    | nil =>
      have hstep : bufferStep (buffersOf pre) evs j =
          (emptyBuffers, evs ++ flushEventsOf (pre ++ [j])) := by
        simp only [bufferStep, appendJoin_buffersOf]
        rw [if_pos, flush_buffersOf (pre ++ [j]) (by simp)]
        simp only [buffersOf, List.length_map]
        simpa using h
      simp only [foldJoins, List.foldl_cons, List.foldl_nil]
      exact hstep
    | cons j2 js2 =>
      have hlen2 : pre.length + js2.length + 2 = BATCH_SIZE := by
        simp at h; omega
      have hstep : bufferStep (buffersOf pre) evs j =
          (buffersOf (pre ++ [j]), evs) := by
        simp only [bufferStep, appendJoin_buffersOf]
        rw [if_neg]
        simp only [buffersOf, List.length_map, List.length_append,
          List.length_singleton]
        omega
      have heq : foldJoins (buffersOf pre, evs) (j :: j2 :: js2) =
          foldJoins (buffersOf (pre ++ [j]), evs) (j2 :: js2) := by
        simp only [foldJoins, List.foldl_cons]
        rw [hstep]
      rw [heq, ih (pre ++ [j]) evs (by simp; omega) (by simp)]
      simp

/-- In one full flush there is exactly one insert per record kind. -/
theorem countKind_flushEventsOf (k : String) (evs : List InsertEvent)
    (js : List Join) (hk : k ∈ ["items", "objects", "literals", "types"]) :
    countKind k (evs ++ flushEventsOf js) = countKind k evs + 1 := by
  fin_cases hk <;>
    simp [countKind, flushEventsOf, eventKind, List.filter_append]

/-- C7: appending exactly `BATCH_SIZE` records of each kind triggers
exactly one flush per kind and leaves the buffers empty; appending
`BATCH_SIZE - 1` triggers none until the end of the stream, where the
non-empty buffers are flushed once. -/
theorem c7_batch_flush (js : List Join) (evs : List InsertEvent) :
    (js.length = BATCH_SIZE →
       foldJoins (emptyBuffers, evs) js =
         (emptyBuffers, evs ++ flushEventsOf js) ∧
       ∀ k ∈ ["items", "objects", "literals", "types"],
         countKind k (evs ++ flushEventsOf js) = countKind k evs + 1) ∧
    (js.length = BATCH_SIZE - 1 →
       foldJoins (emptyBuffers, evs) js = (buffersOf js, evs) ∧
       endFlush (buffersOf js, evs) =
         (emptyBuffers, evs ++ flushEventsOf js) ∧
       ∀ k ∈ ["items", "objects", "literals", "types"],
         countKind k (evs ++ flushEventsOf js) = countKind k evs + 1) := by
  constructor
  · intro h
    refine ⟨?_, fun k hk => countKind_flushEventsOf k evs js hk⟩
    have hne : js ≠ [] := by
      intro he; rw [he] at h; simp [BATCH_SIZE] at h
    have := foldJoins_flush js [] evs (by simpa using h) hne
    simpa [buffersOf] using this
  · intro h
    have hne : js ≠ [] := by
      intro he; rw [he] at h; simp [BATCH_SIZE] at he h
    refine ⟨?_, ?_, fun k hk => countKind_flushEventsOf k evs js hk⟩
    · have := foldJoins_no_flush js [] evs
        (by simp [h, BATCH_SIZE])
      simpa [buffersOf] using this
    · have hl : 0 < (buffersOf js).items.length := by
        simp [buffersOf, List.length_pos]
        exact hne
      simp only [endFlush, if_pos hl, flush_buffersOf js hne]

/-- A minimal derived-record bundle used to exercise the batch writer. -/
def joinFixture : Join where
  items := { id_entity := 0, entity := "Q1", description := none,
             labels := [], aliases := [], types := [("P31", [])],
             popularity := 1, kind := "entity", NERtype := [], URLs := [],
             extended_WDtypes := [], explicit_WDtypes := [] }
  objects := { id_entity := 0, entity := "Q1", objects := [] }
  literals := { id_entity := 0, entity := "Q1", literals := [] }
  types := { id_entity := 0, entity := "Q1", types := [("P31", [])] }

/-- Witness for C7: a stream of exactly `BATCH_SIZE` bundles flushes once
(per kind) and empties the buffers. -/
theorem c7_batch_flush_witness :
    foldJoins (emptyBuffers, []) (List.replicate BATCH_SIZE joinFixture) =
      (emptyBuffers,
        [] ++ flushEventsOf (List.replicate BATCH_SIZE joinFixture)) ∧
    countKind "items"
        ([] ++ flushEventsOf (List.replicate BATCH_SIZE joinFixture)) =
      countKind "items" [] + 1 := by
  have h := (c7_batch_flush (List.replicate BATCH_SIZE joinFixture) []).1
    (by simp)
  exact ⟨h.1, h.2 "items" (by simp)⟩

/-- The tag one claim contributes is always one of the four NER tags. -/
theorem specNerTag_mem (geo org : List Int) (nid : Option JValue) :
    specNerTag geo org nid ∈ ["PERS", "LOC", "ORG", "OTHERS"] := by
  unfold specNerTag
  split_ifs <;> simp

/-- Keys of the counter after one increment: unchanged when the tag is
already counted, appended otherwise. -/
theorem counterAdd_keys (cnt : List (String × Nat)) (k : String) :
    (counterAdd cnt k).map (·.1) =
      if k ∈ cnt.map (·.1) then cnt.map (·.1)
      else cnt.map (·.1) ++ [k] := by
  unfold counterAdd
  by_cases hc : cnt.any (·.1 = k)
  · have hk : k ∈ cnt.map (·.1) := by
      rw [List.any_eq_true] at hc
      obtain ⟨p, hp, he⟩ := hc
      rw [List.mem_map]
      exact ⟨p, hp, by simpa using he⟩
    rw [if_pos hc, if_pos hk, List.map_map]
    apply List.map_congr_left
    intro p _
    by_cases hpk : p.1 = k <;> simp [hpk]
  · have hk : k ∉ cnt.map (·.1) := by
      intro hmem
      rw [List.mem_map] at hmem
      obtain ⟨p, hp, he⟩ := hmem
      exact hc (List.any_eq_true.mpr ⟨p, hp, by simpa using he⟩)
    rw [if_neg hc, if_neg hk]
    simp

/-- Running the counter loop over claims whose numeric ids extract
successfully: it succeeds, its keys are the first-occurrence deduplication
of the per-claim tags, and every key is one of the four tags (or came from
the starting counter). -/
theorem nerFold_keys (geo org : List Int) :
    ∀ (claims : List Claim) (cnt : List (String × Nat))
      (nids : List (Option JValue)),
    claims.mapM claimNumericId = Except.ok nids →
    ∃ cnt', claims.foldlM (nerStep geo org) cnt = Except.ok cnt' ∧
      cnt'.map (·.1) =
        (nids.map (specNerTag geo org)).foldl
          (fun acc t => if t ∈ acc then acc else acc ++ [t])
          (cnt.map (·.1)) ∧
      (∀ k ∈ cnt'.map (·.1),
         k ∈ cnt.map (·.1) ∨ k ∈ ["PERS", "LOC", "ORG", "OTHERS"]) := by
  intro claims
  induction claims with
  | nil =>
    intro cnt nids h
    have h' : Except.ok ([] : List (Option JValue)) = Except.ok nids := h
    have hn : nids = [] := (Except.ok.inj h').symm
    subst hn
    exact ⟨cnt, rfl, by simp, fun k hk => Or.inl hk⟩
  | cons c cs ih =>
    intro cnt nids h
    rw [List.mapM_cons] at h
    obtain ⟨v, hv, h⟩ := exbind_ok _ _ _ h
    obtain ⟨vs, hvs, h⟩ := exbind_ok _ _ _ h
    have h' : Except.ok (v :: vs) = Except.ok nids := h
    have hn : nids = v :: vs := (Except.ok.inj h').symm
    subst hn
    obtain ⟨cnt', hfold, hkeys, hmem⟩ :=
      ih (counterAdd cnt (specNerTag geo org v)) vs hvs
    refine ⟨cnt', ?_, ?_, ?_⟩
    · rw [List.foldlM_cons]
      have hstep : nerStep geo org cnt c =
          Except.ok (counterAdd cnt (specNerTag geo org v)) := by
        unfold nerStep
        rw [hv]
        rfl
      rw [hstep]
      exact hfold
    · rw [hkeys, List.map_cons, List.foldl_cons, counterAdd_keys]
    · intro k hk
      rcases hmem k hk with hin | hfour
      · rw [counterAdd_keys] at hin
        by_cases hmem2 : specNerTag geo org v ∈ cnt.map (·.1)
        · rw [if_pos hmem2] at hin
          exact Or.inl hin
        · rw [if_neg hmem2] at hin
          rcases List.mem_append.mp hin with h1 | h2
          · exact Or.inl h1
          · have : k = specNerTag geo org v := by simpa using h2
            exact Or.inr (this ▸ specNerTag_mem geo org v)
      · exact Or.inr hfour

/-- The rendering loop turns the counter into the list of its keys when
every key is one of the four tags. -/
theorem renderCounter_keys :
    ∀ cnt : List (String × Nat),
    (∀ k ∈ cnt.map (·.1), k ∈ ["PERS", "LOC", "ORG", "OTHERS"]) →
    renderCounter cnt = cnt.map (·.1) := by
  have aux : ∀ (cnt : List (String × Nat)) (acc : List String),
      (∀ k ∈ cnt.map (·.1), k ∈ ["PERS", "LOC", "ORG", "OTHERS"]) →
      cnt.foldl (fun acc p =>
        if p.1 = "ORG" then acc ++ ["ORG"]
        else if p.1 = "PERS" then acc ++ ["PERS"]
        else if p.1 = "LOC" then acc ++ ["LOC"]
        else if p.1 = "OTHERS" then acc ++ ["OTHERS"]
        else acc) acc = acc ++ cnt.map (·.1) := by
    intro cnt
    induction cnt with
    | nil => intro acc _; simp
    | cons p ps ih =>
      intro acc hyp
      have hp : p.1 = "PERS" ∨ p.1 = "LOC" ∨ p.1 = "ORG" ∨
          p.1 = "OTHERS" := by
        simpa using hyp p.1 (by simp)
      have hstep : (if p.1 = "ORG" then acc ++ ["ORG"]
          else if p.1 = "PERS" then acc ++ ["PERS"]
          else if p.1 = "LOC" then acc ++ ["LOC"]
          else if p.1 = "OTHERS" then acc ++ ["OTHERS"]
          else acc) = acc ++ [p.1] := by
        rcases hp with h | h | h | h <;> rw [h] <;> simp
      rw [List.foldl_cons, hstep,
        ih (acc ++ [p.1]) (fun k hk => hyp k (by simp [hk]))]
      simp
  intro cnt h
  have := aux cnt [] h
  simpa [renderCounter] using this

/-- First-occurrence deduplication never repeats an element. -/
theorem dedupFirst_aux_nodup :
    ∀ (ts acc : List String), acc.Nodup →
    (ts.foldl (fun acc t => if t ∈ acc then acc else acc ++ [t])
      acc).Nodup := by
  intro ts
  induction ts with
  | nil => intro acc h; simpa
  | cons t ts ih =>
    intro acc h
    rw [List.foldl_cons]
    by_cases hm : t ∈ acc
    · rw [if_pos hm]; exact ih acc h
    · rw [if_neg hm]
      exact ih _ (by simp [List.nodup_append, h, hm])

/-- `dedupFirst` output has no duplicates. -/
theorem dedupFirst_nodup (ts : List String) : (dedupFirst ts).Nodup :=
  dedupFirst_aux_nodup ts [] (by simp)

/-- Deduplicating into an accumulator that already contains everything
changes nothing. -/
theorem dedupFirst_absorb :
    ∀ (ts acc : List String), (∀ t ∈ ts, t ∈ acc) →
    ts.foldl (fun acc t => if t ∈ acc then acc else acc ++ [t]) acc
      = acc := by
  intro ts
  induction ts with
  | nil => intro acc _; rfl
  | cons t ts ih =>
    intro acc h
    rw [List.foldl_cons, if_pos (h t (by simp))]
    exact ih acc (fun x hx => h x (by simp [hx]))

/-- Deduplicating a nonempty constant list yields the singleton. -/
theorem dedupFirst_const (ts : List String) (h : ts ≠ [])
    (hall : ∀ t ∈ ts, t = "PERS") : dedupFirst ts = ["PERS"] := by
  cases ts with
  | nil => exact absurd rfl h
  | cons t ts2 =>
    have ht : t = "PERS" := hall t (by simp)
    unfold dedupFirst
    rw [List.foldl_cons, if_neg (by simp), ht]
    exact dedupFirst_absorb ts2 (([] : List String) ++ ["PERS"])
      (fun x hx => by rw [hall x (by simp [hx])]; simp)

/-- A successful counter fold implies all numeric-id extractions
succeeded. -/
theorem nerFold_ok_mapM (geo org : List Int) :
    ∀ (claims : List Claim) (cnt cnt' : List (String × Nat)),
    claims.foldlM (nerStep geo org) cnt = Except.ok cnt' →
    ∃ nids, claims.mapM claimNumericId = Except.ok nids := by
  intro claims
  induction claims with
  | nil => intro cnt cnt' _; exact ⟨[], rfl⟩
  | cons c cs ih =>
    intro cnt cnt' h
    rw [List.foldlM_cons] at h
    obtain ⟨cnt1, hstep, h⟩ := exbind_ok _ _ _ h
    unfold nerStep at hstep
    obtain ⟨v, hv, _⟩ := exbind_ok _ _ _ hstep
    obtain ⟨nids, hns⟩ := ih cnt1 cnt' h
    refine ⟨v :: nids, ?_⟩
    rw [List.mapM_cons, hv]
    show cs.mapM claimNumericId >>= (fun vs => pure (v :: vs)) = _
    rw [hns]
    rfl

/-- Claims that all carry the human numeric id extract to a constant
list. -/
theorem mapM_const_human :
    ∀ claims : List Claim,
    (∀ c ∈ claims, claimNumericId c = Except.ok (some (JValue.jnum 5))) →
    claims.mapM claimNumericId =
      Except.ok (claims.map (fun _ => some (JValue.jnum 5))) := by
  intro claims
  induction claims with
  | nil => intro _; rfl
  | cons c cs ih =>
    intro h
    rw [List.mapM_cons, h c (by simp)]
    show cs.mapM claimNumericId >>=
      (fun vs => pure (some (JValue.jnum 5) :: vs)) = _
    rw [ih (fun x hx => h x (by simp [hx]))]
    rfl

/-- C6: every instance-of claim contributes PERS when its value has the
canonical human numeric id 5, else LOC when it lies in the location
taxonomy set, else ORG when in the organization set, else OTHERS (the rule
`specNerTag`); the NER list accumulates these tags over all P31 claims
with first-occurrence deduplication, never repeats a tag, and an entity
whose only instance-of value is human gets exactly `["PERS"]`. -/
theorem c6_ner_accumulation :
    (∀ (geo org : List Int) (p31 : List Claim)
       (nids : List (Option JValue)),
       p31.mapM claimNumericId = Except.ok nids →
       nerTags geo org p31 =
         Except.ok (dedupFirst (nids.map (specNerTag geo org)))) ∧
    (∀ (geo org : List Int) (p31 : List Claim) (l : List String),
       nerTags geo org p31 = Except.ok l → l.Nodup) ∧
    (∀ (geo org : List Int) (p31 : List Claim),
       p31 ≠ [] →
       (∀ c ∈ p31, claimNumericId c = Except.ok (some (JValue.jnum 5))) →
       nerTags geo org p31 = Except.ok ["PERS"]) := by
  have hpart1 : ∀ (geo org : List Int) (p31 : List Claim)
      (nids : List (Option JValue)),
      p31.mapM claimNumericId = Except.ok nids →
      nerTags geo org p31 =
        Except.ok (dedupFirst (nids.map (specNerTag geo org))) := by
    intro geo org p31 nids h
    unfold nerTags
    by_cases hp : p31.length ≠ 0
    · rw [if_pos hp]
      obtain ⟨cnt', hfold, hkeys, hmem⟩ := nerFold_keys geo org p31 [] nids h
      rw [hfold]
      show Except.ok (renderCounter cnt') = _
      rw [renderCounter_keys cnt'
        (fun k hk => (hmem k hk).resolve_left (by simp))]
      rw [hkeys]
      rfl
    · rw [if_neg hp]
      have hp31 : p31 = [] := by
        simpa using hp
      subst hp31
      have h' : Except.ok ([] : List (Option JValue)) = Except.ok nids := h
      have hn : nids = [] := (Except.ok.inj h').symm
      subst hn
      rfl
  refine ⟨hpart1, ?_, ?_⟩
  · intro geo org p31 l h
    unfold nerTags at h
    by_cases hp : p31.length ≠ 0
    · rw [if_pos hp] at h
      obtain ⟨cnt', hfold, h⟩ := exbind_ok _ _ _ h
      obtain ⟨nids, hmapm⟩ := nerFold_ok_mapM geo org p31 [] cnt' hfold
      have := hpart1 geo org p31 nids hmapm
      unfold nerTags at this
      rw [if_pos hp, hfold] at this
      have h2 : Except.ok (renderCounter cnt') =
          Except.ok (dedupFirst (nids.map (specNerTag geo org))) := this
      have h3 : Except.ok (renderCounter cnt') = Except.ok l := h
      have hl : l = dedupFirst (nids.map (specNerTag geo org)) :=
        (Except.ok.inj h3).symm.trans (Except.ok.inj h2)
      rw [hl]
      exact dedupFirst_nodup _
    · rw [if_neg hp] at h
      have h' : Except.ok ([] : List String) = Except.ok l := h
      have hl : l = [] := (Except.ok.inj h').symm
      rw [hl]
      exact List.nodup_nil
  · intro geo org p31 hne hall
    have hmapm := mapM_const_human p31 hall
    rw [hpart1 geo org p31 _ hmapm]
    congr 1
    rw [List.map_map]
    apply dedupFirst_const
    · simpa using hne
    · intro t ht
      rw [List.mem_map] at ht
      obtain ⟨c, _, hc⟩ := ht
      rw [← hc]
      rfl

/-- Witness for C6: the single human claim yields exactly `["PERS"]`. -/
theorem c6_ner_accumulation_witness :
    nerTags [] [] [humanClaim] = Except.ok ["PERS"] :=
  c6_ner_accumulation.2.2 [] [] [humanClaim]
    (fun h => List.noConfusion h)
    (fun c hc => by
      have : c = humanClaim := by simpa using hc
      rw [this]
      rfl)

end LamAPI
